import Mathlib

/-!
Shallow embedding of the psa repository (src/collection.py and src/price.py)
and verification of the frozen claims about it.

Python dicts are modelled as association lists (first match wins, insertion
order preserved, assignment replaces the first matching key or appends).
Python floats on the pricing path are modelled with exact arithmetic:
rationals where the source only multiplies and divides rationals, and reals
where the source takes a square root (numpy std).
-/

/-! ## Generic Python-dict operations -/

/-- Lookup in a Python dict modelled as an association list (first match). -/
def pyLookup {α : Type} : List (String × α) → String → Option α
  | [], _ => none
  | (k, v) :: rest, key => if k = key then some v else pyLookup rest key

/-- Python dict assignment `d[k] = v`: replaces the first entry with key `k`
(keeping its position, as CPython dicts do) or appends a new entry. -/
def dictSet {α : Type} : List (String × α) → String → α → List (String × α)
  | [], k, v => [(k, v)]
  | (k', v') :: rest, k, v =>
    if k' = k then (k, v) :: rest else (k', v') :: dictSet rest k v

/-- Keys of a dict, in order. -/
def keysOf {α : Type} (d : List (String × α)) : List String := d.map Prod.fst

/-! ## collection.py: the card attribute model

A card as seen by `Collection._organise` is a JSON object whose attributes are
all optional except `grade` (values pre-rendered to strings, as
`Collection.get_attr` does with `str(...)`). -/

structure CardAttrs where
  language : Option String := none
  pkmn : Option String := none
  energy : Option String := none
  trainer : Option String := none
  set : Option String := none
  firstEd : Option String := none
  base_no_rarity : Option String := none
  shadowless : Option String := none
  shining : Option String := none
  FA : Option String := none
  EX : Option String := none
  M : Option String := none
  LVX : Option String := none
  LEGEND : Option String := none
  BREAK : Option String := none
  bandai : Option String := none
  topsun_nonumber : Option String := none
  promo : Option String := none
  sign : Option String := none
  notes : Option String := none
  grade : Option String := none
deriving DecidableEq

/-- `Collection.get_attr`: the attribute's string value, or the sentinel
`"NONE"` when the attribute is absent. -/
def get_attr (v : Option String) : String := v.getD "NONE"

/-- The detail attributes hashed into the L3 key, in the source's fixed order
(`"1st"` is the `firstEd` field, `"LV.X"` the `LVX` field). -/
def detailValues (card : CardAttrs) : List String :=
  [get_attr card.firstEd, get_attr card.base_no_rarity, get_attr card.shadowless,
   get_attr card.shining, get_attr card.FA, get_attr card.EX, get_attr card.M,
   get_attr card.LVX, get_attr card.LEGEND, get_attr card.BREAK,
   get_attr card.bandai, get_attr card.topsun_nonumber, get_attr card.promo]

/-- The base (L1) hash: year, language, and species / energy / trainer tag. -/
def baseHash (year : String) (card : CardAttrs) : String :=
  let h := year ++ "-" ++ get_attr card.language
  match card.pkmn with
  | some p => h ++ "-" ++ p
  | none =>
    match card.energy with
    | some _ => h ++ "-energy"
    | none =>
      match card.trainer with
      | some _ => h ++ "-trainer"
      | none => h

/-- `str("sign" in card)` as rendered into the L6 key suffix for L4. -/
def signExists (card : CardAttrs) : String :=
  if card.sign.isSome then "True" else "False"

/-- The six per-level membership lists of one bucket of
`Collection._organise`'s `hash` (the inner `defaultdict(list)`). -/
structure Levels where
  l1 : List String := []
  l2 : List String := []
  l3 : List String := []
  l4 : List String := []
  l5 : List String := []
  l6 : List String := []
deriving DecidableEq

inductive LevelIdx | l1 | l2 | l3 | l4 | l5 | l6
deriving DecidableEq

def appendToLevel (lv : Levels) (i : LevelIdx) (c : String) : Levels :=
  match i with
  | .l1 => { lv with l1 := lv.l1 ++ [c] }
  | .l2 => { lv with l2 := lv.l2 ++ [c] }
  | .l3 => { lv with l3 := lv.l3 ++ [c] }
  | .l4 => { lv with l4 := lv.l4 ++ [c] }
  | .l5 => { lv with l5 := lv.l5 ++ [c] }
  | .l6 => { lv with l6 := lv.l6 ++ [c] }

def emptyLevels : Levels := {}

/-- `hash[key][level].append(cert)` on the outer defaultdict: get-or-create the
bucket for `key`, then append to the given level list. -/
def appendLevel : List (String × Levels) → String → LevelIdx → String → List (String × Levels)
  | [], key, i, c => [(key, appendToLevel emptyLevels i c)]
  | (k, lv) :: rest, key, i, c =>
    if k = key then (k, appendToLevel lv i c) :: rest
    else (k, lv) :: appendLevel rest key i c

/-- The body of `_organise`'s inner loop for one `(year, cert, card)`.
Faithful to the source: the cumulative `card_hash` is extended at each level,
but every append from L2 on is made to `hash[base_hash]`, so the extended
keys are dead values. -/
def organiseStep (h : List (String × Levels)) (year cert : String) (card : CardAttrs) :
    List (String × Levels) :=
  let card_hash := baseHash year card
  let base_hash := card_hash
  let h := appendLevel h card_hash .l1 cert
  let card_hash := card_hash ++ "-" ++ get_attr card.set
  let h := appendLevel h base_hash .l2 cert
  let card_hash := List.foldl (fun acc d => acc ++ "-" ++ d) card_hash (detailValues card)
  let h := appendLevel h base_hash .l3 cert
  let card_hash := card_hash ++ "-" ++ signExists card
  let h := appendLevel h base_hash .l4 cert
  let card_hash := card_hash ++ "-" ++ get_attr card.notes
  let h := appendLevel h base_hash .l5 cert
  let card_hash := card_hash ++ "-" ++ get_attr card.grade
  let card_hash := card_hash ++ "-" ++ get_attr card.sign
  let h := appendLevel h base_hash .l6 cert
  h

/-- The raw year-partitioned dataset `Collection._data`. -/
abbrev YearCards := List (String × List (String × CardAttrs))

/-- Occurrences `(year, cert, card)` in iteration order of `_organise`'s loops. -/
def flattenOccs (data : YearCards) : List (String × String × CardAttrs) :=
  data.flatMap fun p => p.2.map fun q => (p.1, q.1, q.2)

/-- All certification numbers appearing in the dataset, in order. -/
def allCerts (data : YearCards) : List String :=
  (flattenOccs data).map fun t => t.2.1

/-- The bucket-building phase of `Collection._organise`. -/
def organise (data : YearCards) : List (String × Levels) :=
  (flattenOccs data).foldl (fun h t => organiseStep h t.1 t.2.1 t.2.2) []

/-- `base_cards[cert] += 1/6` (no-op when absent; the source would raise
`KeyError`, which cannot happen since the outer loop runs over `l1` and the
map is keyed by `l6`, which receive identical appends). -/
def bump : List (String × ℚ) → String → List (String × ℚ)
  | [], _ => []
  | (k, v) :: rest, c =>
    if k = c then (k, v + 1 / 6) :: rest else (k, v) :: bump rest c

/-- The confidence map `hash[base_hash]["prob"]` of one bucket: `1/6` per
`l6` member, plus `1/6` for each of `l5`..`l1` the cert is a member of. -/
def probOf (lv : Levels) : List (String × ℚ) :=
  let base := lv.l6.map fun c => (c, (1 : ℚ) / 6)
  lv.l1.foldl
    (fun acc cert =>
      List.foldl (fun acc' lvl => if cert ∈ lvl then bump acc' cert else acc') acc
        [lv.l5, lv.l4, lv.l3, lv.l2, lv.l1])
    base

/-- One entry of `Collection.find_dupes`'s result list. -/
structure DupeMatch where
  base_hash : String
  match_prob : ℚ
  certs : List String
deriving DecidableEq

/-- Stable insertion keeping strictly-greater probabilities in front;
inserting after all entries with probability `≥` the new one preserves the
original order of ties, as Python's stable `sorted(..., reverse=True)` does. -/
def insertDesc (m : DupeMatch) : List DupeMatch → List DupeMatch
  | [] => [m]
  | x :: xs =>
    if x.match_prob < m.match_prob then m :: x :: xs else x :: insertDesc m xs

/-- `sorted(matches, reverse=True, key=lambda m: m["match_prob"])`. -/
def sortByProbDesc (l : List DupeMatch) : List DupeMatch :=
  l.foldl (fun acc m => insertDesc m acc) []

/-- `Collection.find_dupes`: collect every bucket whose confidence map
contains `cert`, then sort by descending confidence. -/
def find_dupes (data : YearCards) (cert : String) : List DupeMatch :=
  let found := (organise data).filterMap fun g =>
    let results := probOf g.2
    if cert ∈ keysOf results then
      some ⟨g.1, (pyLookup results cert).getD 0, g.2.l1⟩
    else none
  sortByProbDesc found

/-! ### Concrete datasets for the Equivalence Index claims -/

/-- A pair of cards identical except that `"B"` carries the `"1st"` detail
flag: they share keys through L2 and diverge first at L3. -/
def c1Data : YearCards :=
  [("1999",
    [("A", { pkmn := some "25", grade := some "9" }),
     ("B", { pkmn := some "25", grade := some "9", firstEd := some "True" })])]

/-- A pair of cards with identical six-level keys. -/
def c1DataIdent : YearCards :=
  [("1999",
    [("C", { pkmn := some "25", grade := some "9" }),
     ("D", { pkmn := some "25", grade := some "9" })])]

/-- The single bucket the two `c1Data` cards land in. -/
def c1Levels : Levels :=
  ⟨["A", "B"], ["A", "B"], ["A", "B"], ["A", "B"], ["A", "B"], ["A", "B"]⟩

lemma c1_organise : organise c1Data = [("1999-NONE-25", c1Levels)] := by decide

lemma c1_prob : probOf c1Levels = [("A", 1), ("B", 1)] := by
  norm_num [probOf, c1Levels, bump]
  all_goals decide

lemma c1Ident_organise :
    organise c1DataIdent = [("1999-NONE-25",
      ⟨["C", "D"], ["C", "D"], ["C", "D"], ["C", "D"], ["C", "D"], ["C", "D"]⟩)] := by
  decide

lemma c1Ident_prob :
    probOf ⟨["C", "D"], ["C", "D"], ["C", "D"], ["C", "D"], ["C", "D"], ["C", "D"]⟩ =
      [("C", 1), ("D", 1)] := by
  norm_num [probOf, bump]
  all_goals decide

/-- C1: the claim says bucket membership is computed against each level's own
cumulative key, so that card `"B"` (diverging from `"A"` first at L3) gets
confidence `3/6`. The code instead appends every level's membership to the
coarse `base_hash` bucket, so both cards of `c1Data` get confidence `1`,
not `3/6` (and not the `2/6` the spec's own additive rule would give); only
the identical-six-key case coincidentally agrees with the claim's `1.0`. -/
lemma c1_find_A : find_dupes c1Data "A" = [⟨"1999-NONE-25", 1, ["A", "B"]⟩] := by
  rw [find_dupes, c1_organise]
  simp only [List.filterMap_cons, List.filterMap_nil, c1_prob, keysOf]
  norm_num [pyLookup, sortByProbDesc, insertDesc, c1Levels]

lemma c1_find_B : find_dupes c1Data "B" = [⟨"1999-NONE-25", 1, ["A", "B"]⟩] := by
  rw [find_dupes, c1_organise]
  simp only [List.filterMap_cons, List.filterMap_nil, c1_prob, keysOf]
  norm_num [pyLookup, sortByProbDesc, insertDesc, c1Levels]

lemma c1_find_C : find_dupes c1DataIdent "C" = [⟨"1999-NONE-25", 1, ["C", "D"]⟩] := by
  rw [find_dupes, c1Ident_organise]
  simp only [List.filterMap_cons, List.filterMap_nil, c1Ident_prob, keysOf]
  norm_num [pyLookup, sortByProbDesc, insertDesc, c1Levels]

theorem c1_bucket_membership_collapses :
    (find_dupes c1Data "A").map DupeMatch.match_prob = [1]
    ∧ (find_dupes c1Data "B").map DupeMatch.match_prob = [1]
    ∧ (find_dupes c1Data "B").map DupeMatch.match_prob ≠ [3 / 6]
    ∧ (find_dupes c1Data "B").map DupeMatch.certs = [["A", "B"]]
    ∧ (find_dupes c1DataIdent "C").map DupeMatch.match_prob = [1] := by
  refine ⟨?_, ?_, ?_, ?_, ?_⟩ <;>
    norm_num [c1_find_A, c1_find_B, c1_find_C]

/-! ### Structure of the bucket fold

Since all six per-level appends of `organiseStep` target the same
`base_hash` key, one step is a single insertion that appends the cert to all
six lists of the bucket. -/

def singletonLevels (c : String) : Levels := ⟨[c], [c], [c], [c], [c], [c]⟩

def appendAll (lv : Levels) (c : String) : Levels :=
  ⟨lv.l1 ++ [c], lv.l2 ++ [c], lv.l3 ++ [c], lv.l4 ++ [c], lv.l5 ++ [c], lv.l6 ++ [c]⟩

def insertCert : List (String × Levels) → String → String → List (String × Levels)
  | [], bh, c => [(bh, singletonLevels c)]
  | (k, lv) :: rest, bh, c =>
    if k = bh then (k, appendAll lv c) :: rest else (k, lv) :: insertCert rest bh c

lemma insertCert_nil (bh c : String) : insertCert [] bh c = [(bh, singletonLevels c)] := rfl

lemma insertCert_cons (k : String) (lv : Levels) (t : List (String × Levels)) (bh c : String) :
    insertCert ((k, lv) :: t) bh c =
      if k = bh then (k, appendAll lv c) :: t else (k, lv) :: insertCert t bh c := rfl

lemma organiseStep_eq_insertCert (h : List (String × Levels)) (year cert : String)
    (card : CardAttrs) : organiseStep h year cert card = insertCert h (baseHash year card) cert := by
  induction h with
  | nil =>
    simp [organiseStep, appendLevel, insertCert, appendToLevel, singletonLevels, emptyLevels]
  | cons p t ih =>
    obtain ⟨k, lv⟩ := p
    by_cases hk : k = baseHash year card
    · subst hk
      simp [organiseStep, appendLevel, insertCert, appendToLevel, appendAll]
    · simp only [organiseStep, appendLevel, if_neg hk, insertCert]
      simp only [organiseStep] at ih
      rw [ih]

/-- The fold underlying `organise`, with the per-occurrence step reduced to a
single insertion. -/
def foldOrganise (occs : List (String × String × CardAttrs))
    (acc : List (String × Levels)) : List (String × Levels) :=
  occs.foldl (fun h t => insertCert h (baseHash t.1 t.2.2) t.2.1) acc

lemma foldOrganise_cons (t : String × String × CardAttrs) (occs : List (String × String × CardAttrs))
    (acc : List (String × Levels)) :
    foldOrganise (t :: occs) acc = foldOrganise occs (insertCert acc (baseHash t.1 t.2.2) t.2.1) := rfl

lemma keysOf_nil {α : Type} : keysOf ([] : List (String × α)) = [] := rfl

lemma keysOf_cons {α : Type} (p : String × α) (l : List (String × α)) :
    keysOf (p :: l) = p.1 :: keysOf l := rfl

lemma organise_eq_foldOrganise (data : YearCards) :
    organise data = foldOrganise (flattenOccs data) [] := by
  unfold organise foldOrganise
  simp only [organiseStep_eq_insertCert]

lemma keys_insertCert (h : List (String × Levels)) (bh c : String) :
    keysOf (insertCert h bh c) = if bh ∈ keysOf h then keysOf h else keysOf h ++ [bh] := by
  induction h with
  | nil => simp [insertCert_nil, keysOf]
  | cons p t ih =>
    obtain ⟨k, lv⟩ := p
    rw [insertCert_cons]
    by_cases hk : k = bh
    · subst hk
      rw [if_pos rfl, keysOf_cons, keysOf_cons]
      simp [List.mem_cons]
    · have hne : ¬bh = k := fun hh => hk hh.symm
      rw [if_neg hk, keysOf_cons, keysOf_cons, ih]
      by_cases hmem : bh ∈ keysOf t
      · simp [hmem, hne, List.mem_cons]
      · simp [hmem, hne, List.mem_cons]

lemma keys_nodup_foldOrganise (occs : List (String × String × CardAttrs)) :
    ∀ acc, (keysOf acc).Nodup → (keysOf (foldOrganise occs acc)).Nodup := by
  induction occs with
  | nil => intro acc h; exact h
  | cons t ts ih =>
    intro acc h
    rw [foldOrganise_cons]
    refine ih _ ?_
    rw [keys_insertCert]
    by_cases hmem : baseHash t.1 t.2.2 ∈ keysOf acc
    · simpa [hmem] using h
    · simp [hmem, List.nodup_append, h]

lemma keys_nodup_organise (data : YearCards) : (keysOf (organise data)).Nodup := by
  rw [organise_eq_foldOrganise]
  exact keys_nodup_foldOrganise _ [] (by simp [keysOf])

lemma mem_insertCert (h : List (String × Levels)) (bh0 c bh : String) (lv : Levels) :
    (bh, lv) ∈ insertCert h bh0 c →
    (bh, lv) ∈ h ∨
      (bh = bh0 ∧ (lv = singletonLevels c ∨ ∃ lv', (bh0, lv') ∈ h ∧ lv = appendAll lv' c)) := by
  induction h with
  | nil =>
    intro hm
    rw [insertCert_nil, List.mem_singleton, Prod.mk.injEq] at hm
    exact Or.inr ⟨hm.1, Or.inl hm.2⟩
  | cons p t ih =>
    intro hm
    obtain ⟨k, lv0⟩ := p
    rw [insertCert_cons] at hm
    by_cases hk : k = bh0
    · subst hk
      rw [if_pos rfl] at hm
      rcases List.mem_cons.mp hm with h1 | h2
      · rw [Prod.mk.injEq] at h1
        exact Or.inr ⟨h1.1, Or.inr ⟨lv0, List.mem_cons_self _ _, h1.2⟩⟩
      · exact Or.inl (List.mem_cons_of_mem _ h2)
    · rw [if_neg hk] at hm
      rcases List.mem_cons.mp hm with h1 | h2
      · exact Or.inl (List.mem_cons.mpr (Or.inl h1))
      · rcases ih h2 with hin | ⟨hbh, hrest⟩
        · exact Or.inl (List.mem_cons_of_mem _ hin)
        · rcases hrest with hsing | ⟨lv', hlv', heq⟩
          · exact Or.inr ⟨hbh, Or.inl hsing⟩
          · exact Or.inr ⟨hbh, Or.inr ⟨lv', List.mem_cons_of_mem _ hlv', heq⟩⟩

lemma mem_l6_foldOrganise (occs : List (String × String × CardAttrs)) :
    ∀ acc bh lv c, (bh, lv) ∈ foldOrganise occs acc → c ∈ lv.l6 →
      (∃ lv0, (bh, lv0) ∈ acc ∧ c ∈ lv0.l6) ∨
        ∃ t ∈ occs, t.2.1 = c ∧ baseHash t.1 t.2.2 = bh := by
  induction occs with
  | nil =>
    intro acc bh lv c hm hc
    exact Or.inl ⟨lv, hm, hc⟩
  | cons t ts ih =>
    intro acc bh lv c hm hc
    rw [foldOrganise_cons] at hm
    rcases ih _ bh lv c hm hc with ⟨lv0, hlv0, hcl⟩ | ⟨t', ht', h1, h2⟩
    · rcases mem_insertCert _ _ _ _ _ hlv0 with hin | ⟨hbh, hrest⟩
      · exact Or.inl ⟨lv0, hin, hcl⟩
      · subst hbh
        rcases hrest with hsing | ⟨lv', hlv', heq⟩
        · subst hsing
          simp only [singletonLevels, List.mem_singleton] at hcl
          exact Or.inr ⟨t, List.mem_cons_self _ _, hcl.symm, rfl⟩
        · subst heq
          simp only [appendAll, List.mem_append, List.mem_singleton] at hcl
          rcases hcl with hcl | hcl
          · exact Or.inl ⟨lv', hlv', hcl⟩
          · exact Or.inr ⟨t, List.mem_cons_self _ _, hcl.symm, rfl⟩
    · exact Or.inr ⟨t', List.mem_cons_of_mem _ ht', h1, h2⟩

/-- Every cert listed at L6 of a bucket of `organise` comes from an occurrence
of the dataset whose base hash is that bucket's key. -/
lemma mem_l6_organise {data : YearCards} {bh : String} {lv : Levels} {c : String}
    (hm : (bh, lv) ∈ organise data) (hc : c ∈ lv.l6) :
    ∃ t ∈ flattenOccs data, t.2.1 = c ∧ baseHash t.1 t.2.2 = bh := by
  rw [organise_eq_foldOrganise] at hm
  rcases mem_l6_foldOrganise _ [] bh lv c hm hc with ⟨lv0, hlv0, _⟩ | h
  · simp at hlv0
  · exact h

/-! ### Keys of the confidence map -/

lemma keys_bump (l : List (String × ℚ)) (c : String) : keysOf (bump l c) = keysOf l := by
  induction l with
  | nil => rfl
  | cons p t ih =>
    obtain ⟨k, v⟩ := p
    by_cases hk : k = c <;> simp [bump, hk, keysOf_cons, ih]

lemma keys_innerFold (ls : List (List String)) :
    ∀ (acc : List (String × ℚ)) (c : String),
      keysOf (ls.foldl (fun a lvl => if c ∈ lvl then bump a c else a) acc) = keysOf acc := by
  induction ls with
  | nil => intro acc c; rfl
  | cons l ls ih =>
    intro acc c
    simp only [List.foldl_cons]
    rw [ih]
    by_cases hm : c ∈ l <;> simp [hm, keys_bump]

lemma keys_outerFold (certs : List String) (l5 l4 l3 l2 l1 : List String) :
    ∀ acc, keysOf (certs.foldl
        (fun acc cert =>
          List.foldl (fun acc' lvl => if cert ∈ lvl then bump acc' cert else acc') acc
            [l5, l4, l3, l2, l1]) acc) = keysOf acc := by
  induction certs with
  | nil => intro acc; rfl
  | cons c cs ih =>
    intro acc
    rw [List.foldl_cons, ih, keys_innerFold]

lemma keys_probOf (lv : Levels) : keysOf (probOf lv) = lv.l6 := by
  unfold probOf
  rw [keys_outerFold]
  simp [keysOf, List.map_map, Function.comp_def]

/-! ### C2: order of `find_dupes` results -/

/-- The order claimed for `find_dupes` output: descending confidence, ties
broken by larger member list, then lexically smaller group key first. -/
def dupeOrder (m1 m2 : DupeMatch) : Prop :=
  m2.match_prob < m1.match_prob ∨
    (m1.match_prob = m2.match_prob ∧
      (m2.certs.length < m1.certs.length ∨
        (m1.certs.length = m2.certs.length ∧ m1.base_hash ≤ m2.base_hash)))

lemma filterMap_nil_or_singleton {α β : Type} (l : List α) (f : α → Option β)
    (h : List.Pairwise (fun a b => f a = none ∨ f b = none) l) :
    l.filterMap f = [] ∨ ∃ b, l.filterMap f = [b] := by
  induction l with
  | nil => exact Or.inl rfl
  | cons a t ih =>
    have h1 : ∀ b ∈ t, f a = none ∨ f b = none := fun b hb =>
      List.rel_of_pairwise_cons h hb
    have ht := List.Pairwise.of_cons h
    cases hfa : f a with
    | none =>
      rcases ih ht with h0 | ⟨b, hb⟩
      · exact Or.inl (by simp [List.filterMap_cons, hfa, h0])
      · exact Or.inr ⟨b, by simp [List.filterMap_cons, hfa, hb]⟩
    | some b =>
      have hnone : ∀ x ∈ t, f x = none := by
        intro x hx
        rcases h1 x hx with hl | hr
        · exact absurd hl (by simp [hfa])
        · exact hr
      have : t.filterMap f = [] := List.filterMap_eq_nil_iff.mpr hnone
      exact Or.inr ⟨b, by simp [List.filterMap_cons, hfa, this]⟩

/-- C2: for any dataset whose certification numbers are globally unique (the
invariant `Collection._flatten_data` enforces before `_organise` runs), the
list returned by `find_dupes` is sorted by descending confidence with ties
broken by member-list size and then by group key. Each cert belongs to
exactly one base bucket, so the list has at most one entry and the order is
deterministic. -/
theorem find_dupes_sorted (data : YearCards) (cert : String)
    (h : (allCerts data).Nodup) : List.Pairwise dupeOrder (find_dupes data cert) := by
  have hkeys : (keysOf (organise data)).Nodup := keys_nodup_organise data
  have hpw : List.Pairwise (fun g1 g2 : String × Levels => g1.1 ≠ g2.1) (organise data) := by
    have := hkeys
    unfold keysOf at this
    rw [List.Nodup, List.pairwise_map] at this
    exact this
  have hinj := List.inj_on_of_nodup_map (f := fun t : String × String × CardAttrs => t.2.1)
    (l := flattenOccs data) h
  have hcond : List.Pairwise
      (fun g1 g2 : String × Levels =>
        (if cert ∈ keysOf (probOf g1.2) then
            some (⟨g1.1, (pyLookup (probOf g1.2) cert).getD 0, g1.2.l1⟩ : DupeMatch)
          else none) = none ∨
        (if cert ∈ keysOf (probOf g2.2) then
            some (⟨g2.1, (pyLookup (probOf g2.2) cert).getD 0, g2.2.l1⟩ : DupeMatch)
          else none) = none) (organise data) := by
    refine hpw.imp_of_mem ?_
    intro g1 g2 hg1 hg2 hne
    by_contra hcon
    push_neg at hcon
    obtain ⟨hs1, hs2⟩ := hcon
    have hc1 : cert ∈ keysOf (probOf g1.2) := by
      by_contra hx; simp [hx] at hs1
    have hc2 : cert ∈ keysOf (probOf g2.2) := by
      by_contra hx; simp [hx] at hs2
    rw [keys_probOf] at hc1 hc2
    obtain ⟨t1, ht1, ht1c, ht1h⟩ := mem_l6_organise (by exact hg1) hc1
    obtain ⟨t2, ht2, ht2c, ht2h⟩ := mem_l6_organise (by exact hg2) hc2
    have : t1 = t2 := hinj ht1 ht2 (by rw [ht1c, ht2c])
    exact hne (by rw [← ht1h, ← ht2h, this])
  have hfm := filterMap_nil_or_singleton (organise data) _ hcond
  simp only [find_dupes]
  rcases hfm with h0 | ⟨b, hb⟩
  · rw [h0]
    exact List.Pairwise.nil
  · rw [hb]
    simp [sortByProbDesc, insertDesc]

/-- Witness for C2 at a concrete dataset. -/
theorem find_dupes_sorted_witness :
    (allCerts c1Data).Nodup ∧ List.Pairwise dupeOrder (find_dupes c1Data "A") :=
  ⟨by decide, find_dupes_sorted c1Data "A" (by decide)⟩

/-! ### C9: unknown certification numbers -/

/-- C9 (amended): for a cert absent from the dataset, `find_dupes` returns
the empty list; it does not raise a NotFound error. -/
theorem find_dupes_unknown_cert_empty (data : YearCards) (cert : String)
    (h : cert ∉ allCerts data) : find_dupes data cert = [] := by
  simp only [find_dupes]
  have hnil : (organise data).filterMap
      (fun g : String × Levels =>
        if cert ∈ keysOf (probOf g.2) then
          some (⟨g.1, (pyLookup (probOf g.2) cert).getD 0, g.2.l1⟩ : DupeMatch)
        else none) = [] := by
    rw [List.filterMap_eq_nil_iff]
    intro g hg
    have hx : cert ∉ keysOf (probOf g.2) := by
      rw [keys_probOf]
      intro hc
      obtain ⟨t, ht, htc, _⟩ := mem_l6_organise hg hc
      exact h (by
        unfold allCerts
        exact List.mem_map.mpr ⟨t, ht, htc⟩)
    simp [hx]
  rw [hnil]
  rfl

/-- Counterexample for C9: in a one-card collection, querying an unknown cert
returns `[]` as an ordinary value — `find_dupes` raises nothing, contradicting
the claimed NotFound failure. -/
theorem find_dupes_unknown_cert_counterexample :
    find_dupes c1Data "ZZ" = [] ∧ "ZZ" ∉ allCerts c1Data := by
  constructor
  · simp only [find_dupes, c1_organise]
    simp [List.filterMap_cons, keys_probOf, c1Levels, sortByProbDesc]
  · decide

/-- Witness for the amended C9 theorem at a different concrete input. -/
theorem find_dupes_unknown_cert_empty_witness :
    "QQ" ∉ allCerts c1DataIdent ∧ find_dupes c1DataIdent "QQ" = [] :=
  ⟨by decide, find_dupes_unknown_cert_empty c1DataIdent "QQ" (by decide)⟩

/-! ## collection.py: `Collection.update`

A raw persisted card is a JSON object whose values may be Python `None`
(modelled as `none`); `update` consumes the `year` field as partition key,
nulls it, drops every `None`-valued field and rewrites the record in place. -/

abbrev RawCard := List (String × Option String)

abbrev RawData := List (String × List (String × RawCard))

/-- The record actually persisted by `Collection.update`: `year` nulled, then
all `None`-valued fields dropped. -/
def persistedRecord (card : RawCard) : RawCard :=
  (dictSet card "year" none).filter fun kv => kv.2.isSome

/-- `Collection.update`: read the partition key `card["year"]`, null it, drop
`None` fields and assign `_data[year][cert]`; a missing year partition is a
`KeyError`. (The subsequent file write is the persistence boundary.) -/
def updateCollection (data : RawData) (cert : String) (card : RawCard) :
    Except String RawData :=
  match pyLookup card "year" with
  | none => .error "KeyError: year"
  | some yv =>
    match yv with
    | none => .error "KeyError: None is not a year partition"
    | some y =>
      match pyLookup data y with
      | none => .error ("KeyError: " ++ y)
      | some coll => .ok (dictSet data y (dictSet coll cert (persistedRecord card)))

/-- Lookup of a single card record by year and cert. -/
def lookupCard (data : RawData) (y c : String) : Option RawCard :=
  match pyLookup data y with
  | none => none
  | some coll => pyLookup coll c

lemma pyLookup_dictSet_self {α : Type} (d : List (String × α)) (k : String) (v : α) :
    pyLookup (dictSet d k v) k = some v := by
  induction d with
  | nil => simp [dictSet, pyLookup]
  | cons p t ih =>
    obtain ⟨k0, v0⟩ := p
    by_cases hk : k0 = k
    · simp [dictSet, hk, pyLookup]
    · simp [dictSet, hk, pyLookup, ih]

lemma pyLookup_dictSet_ne {α : Type} (d : List (String × α)) (k k' : String) (v : α)
    (h : k' ≠ k) : pyLookup (dictSet d k v) k' = pyLookup d k' := by
  have hkk : ¬k = k' := fun hh => h hh.symm
  induction d with
  | nil => simp [dictSet, pyLookup, hkk]
  | cons p t ih =>
    obtain ⟨k0, v0⟩ := p
    by_cases hk : k0 = k
    · subst hk
      simp [dictSet, pyLookup, hkk]
    · simp [dictSet, hk, pyLookup, ih]

lemma pyLookup_eq_none_of_not_mem_keys {α : Type} (d : List (String × α)) (k : String)
    (h : k ∉ keysOf d) : pyLookup d k = none := by
  induction d with
  | nil => rfl
  | cons p t ih =>
    obtain ⟨k0, v0⟩ := p
    rw [keysOf_cons, List.mem_cons] at h
    push_neg at h
    have : ¬k0 = k := fun hh => h.1 hh.symm
    simp [pyLookup, this, ih h.2]

lemma keys_filter_subset (d : RawCard) (p : String × Option String → Bool) (k : String)
    (h : k ∈ keysOf (d.filter p)) : k ∈ keysOf d := by
  induction d with
  | nil => simpa [keysOf] using h
  | cons q t ih =>
    rw [keysOf_cons, List.mem_cons]
    by_cases hp : p q
    · rw [List.filter_cons_of_pos hp, keysOf_cons, List.mem_cons] at h
      rcases h with h | h
      · exact Or.inl h
      · exact Or.inr (ih h)
    · rw [List.filter_cons_of_neg hp] at h
      exact Or.inr (ih h)

/-- No field of the persisted record carries Python `None`. -/
lemma persistedRecord_no_none (card : RawCard) (k : String) :
    pyLookup (persistedRecord card) k ≠ some none := by
  unfold persistedRecord
  generalize dictSet card "year" none = d
  induction d with
  | nil => simp [pyLookup]
  | cons q t ih =>
    obtain ⟨k0, v0⟩ := q
    cases v0 with
    | none => simpa [List.filter_cons, pyLookup] using ih
    | some s =>
      by_cases hk : k0 = k
      · simp [List.filter_cons, pyLookup, hk]
      · simpa [List.filter_cons, pyLookup, hk] using ih

/-- The `year` field, consumed as the partition key, is removed from the
persisted record (the caller's dict has unique keys, as Python dicts do). -/
lemma persistedRecord_no_year (card : RawCard) (h : (keysOf card).Nodup) :
    pyLookup (persistedRecord card) "year" = none := by
  unfold persistedRecord
  induction card with
  | nil => simp [dictSet, pyLookup]
  | cons q t ih =>
    obtain ⟨k0, v0⟩ := q
    rw [keysOf_cons] at h
    have hnd := List.Nodup.of_cons h
    have hnin : k0 ∉ keysOf t := by
      intro hmem
      exact List.rel_of_pairwise_cons h hmem rfl
    by_cases hk : k0 = "year"
    · subst hk
      rw [show dictSet (("year", v0) :: t) "year" none = ("year", none) :: t from by
        simp [dictSet]]
      rw [show (("year", (none : Option String)) :: t).filter (fun kv => kv.2.isSome) =
          t.filter (fun kv => kv.2.isSome) from by simp [List.filter_cons]]
      apply pyLookup_eq_none_of_not_mem_keys
      intro hmem
      exact hnin (keys_filter_subset t _ _ hmem)
    · rw [show dictSet ((k0, v0) :: t) "year" none = (k0, v0) :: dictSet t "year" none from by
        simp [dictSet, hk]]
      cases v0 with
      | none => simpa [List.filter_cons] using ih hnd
      | some s =>
        have : ¬k0 = "year" := hk
        simpa [List.filter_cons, pyLookup, this] using ih hnd

/-- C10: `update` rewrites only the `(year, cert)` record; every other record
of the dataset is untouched, and the persisted record has its `None`-valued
fields (including the consumed `year`) removed. -/
theorem update_frame (data : RawData) (cert : String) (card : RawCard) (y : String)
    (coll : List (String × RawCard))
    (hy : pyLookup card "year" = some (some y))
    (hcoll : pyLookup data y = some coll)
    (hnodup : (keysOf card).Nodup) :
    ∃ data', updateCollection data cert card = Except.ok data'
      ∧ (∀ y' c', y' ≠ y ∨ c' ≠ cert → lookupCard data' y' c' = lookupCard data y' c')
      ∧ lookupCard data' y cert = some (persistedRecord card)
      ∧ (∀ k, pyLookup (persistedRecord card) k ≠ some none)
      ∧ pyLookup (persistedRecord card) "year" = none := by
  refine ⟨dictSet data y (dictSet coll cert (persistedRecord card)), ?_, ?_, ?_, ?_, ?_⟩
  · simp only [updateCollection, hy, hcoll]
  · intro y' c' hne
    by_cases hy' : y' = y
    · subst hy'
      rcases hne with hne | hne
      · exact absurd rfl hne
      · unfold lookupCard
        rw [pyLookup_dictSet_self, hcoll]
        exact pyLookup_dictSet_ne _ _ _ _ hne
    · unfold lookupCard
      rw [pyLookup_dictSet_ne _ _ _ _ hy']
  · unfold lookupCard
    rw [pyLookup_dictSet_self]
    exact pyLookup_dictSet_self _ _ _
  · exact persistedRecord_no_none card
  · exact persistedRecord_no_year card hnodup

/-- A concrete card and dataset for the C10 witness. -/
def c10Card : RawCard := [("grade", some "9"), ("notes", none), ("year", some "1999")]

def c10Coll : List (String × RawCard) := [("A", [("grade", some "8")]), ("B", [("grade", some "7")])]

def c10Data : RawData := [("1999", c10Coll)]

/-- Witness for C10 at a concrete two-card dataset: updating card `"A"` leaves
card `"B"` intact and strips the nulled fields. -/
theorem update_frame_witness :
    pyLookup c10Card "year" = some (some "1999")
      ∧ pyLookup c10Data "1999" = some c10Coll
      ∧ (keysOf c10Card).Nodup
      ∧ ∃ data', updateCollection c10Data "A" c10Card = Except.ok data'
        ∧ (∀ y' c', y' ≠ "1999" ∨ c' ≠ "A" →
            lookupCard data' y' c' = lookupCard c10Data y' c')
        ∧ lookupCard data' "1999" "A" = some (persistedRecord c10Card)
        ∧ (∀ k, pyLookup (persistedRecord c10Card) k ≠ some none)
        ∧ pyLookup (persistedRecord c10Card) "year" = none :=
  ⟨by decide, by decide, by decide,
    update_frame c10Data "A" c10Card "1999" c10Coll (by decide) (by decide) (by decide)⟩

/-! ## price.py: the valuation engine

Cards on the pricing path carry the fields `Price` reads: `grade`,
truthiness of `sign`, `selling.price`, `sales_data.avg_price`,
`sales_data.medium` and `sales_data.last_updated`. Prices and grades are
integers; scale factors and weights are exact rationals (Python floats whose
source values are decimal literals); the statistics layer lives in `ℝ`
because `np.std` takes a square root. -/

inductive Venue
  | ebay
  | mercari
deriving DecidableEq

inductive SaleStatus
  | selling
  | sold
deriving DecidableEq

structure Sale where
  price : ℤ
  grade : ℤ
deriving DecidableEq

/-- `card["sales_data"]["medium"]`: per website and status, the recorded
`{price, grade}` observations, in insertion order. -/
abbrev SalesMedium := List (Venue × SaleStatus × List Sale)

structure PCard where
  grade : ℤ
  sign : Bool
  sellingPrice : ℤ
  avgPrice : ℤ
  salesData : SalesMedium
  lastUpdated : String
deriving DecidableEq

/-- The fixed venue/status weight table of `Price._get_scale_factor`. -/
def websiteWeighting : Venue → SaleStatus → ℚ
  | .ebay, .selling => 1
  | .ebay, .sold => 12 / 10
  | .mercari, .selling => 125 / 100
  | .mercari, .sold => 15 / 10

/-- `Price._get_scale_factor`: returns `(multiplier, weighting)`. The
same-grade bonus uses the raw grades; the decay exponent uses the pseudo-10
adjusted grades. -/
def get_scale_factor (card : PCard) (website : Venue) (status : SaleStatus) (grade : ℤ) :
    ℚ × ℚ :=
  let weighting := websiteWeighting website status
  let multiplier : ℚ := 11 / 10
  let weighting := if card.grade = grade then weighting * (12 / 10) else weighting
  let multiplier := if card.sign then multiplier * 10 else multiplier
  let card_grade : ℤ := if card.grade = 10 then 11 else card.grade
  let grade : ℤ := if grade = 10 then 11 else grade
  (multiplier * (7 / 10 : ℚ) ^ (grade - card_grade), weighting)

/-- The spec's `adjust`: a grade of 10 is treated as 11 in the decay exponent. -/
def adjustGrade (g : ℤ) : ℤ := if g = 10 then 11 else g

/-- C3: the per-observation scale factor is
`1.1 × (10 if signed else 1) × 0.7^(adjust(obs.grade) − adjust(card.grade))`;
it is exactly `1.1` for an unsigned card at equal grades, and a grade-9 card
against a grade-10 observation uses exponent `adjust(10) − adjust(9) = 2`. -/
theorem scale_factor_formula (card : PCard) (website : Venue) (status : SaleStatus) (g : ℤ) :
    (get_scale_factor card website status g).1 =
        (11 / 10 : ℚ) * (if card.sign then 10 else 1) *
          (7 / 10 : ℚ) ^ (adjustGrade g - adjustGrade card.grade)
      ∧ (card.sign = false → g = card.grade →
          (get_scale_factor card website status g).1 = 11 / 10)
      ∧ (card.grade = 9 →
          (get_scale_factor card website status 10).1 =
            (11 / 10 : ℚ) * (if card.sign then 10 else 1) * (7 / 10 : ℚ) ^ (2 : ℤ)) := by
  refine ⟨?_, ?_, ?_⟩
  · cases hsign : card.sign <;> simp [get_scale_factor, adjustGrade, hsign]
  · intro hs hg
    subst hg
    by_cases h10 : card.grade = 10 <;> simp [get_scale_factor, hs, h10]
  · intro h9
    cases hsign : card.sign <;> norm_num [get_scale_factor, hsign, h9]

def c3Card : PCard := ⟨9, false, 0, 0, [], ""⟩

/-- Witness for C3 at a concrete unsigned grade-9 card. -/
theorem scale_factor_formula_witness :
    (get_scale_factor c3Card .ebay .selling 9).1 = 11 / 10
      ∧ (get_scale_factor c3Card .ebay .sold 10).1 =
          (11 / 10 : ℚ) * (if c3Card.sign then 10 else 1) * (7 / 10 : ℚ) ^ (2 : ℤ) :=
  ⟨(scale_factor_formula c3Card .ebay .selling 9).2.1 rfl rfl,
   (scale_factor_formula c3Card .ebay .sold 10).2.2 rfl⟩

/-! ### `Price._calculate` and its statistics -/

/-- One row of `self.pricing_data`: `(price, scale_factor, weight, grade)`. -/
structure PricingRow where
  price : ℤ
  scale : ℚ
  weight : ℚ
  grade : ℤ
deriving DecidableEq

/-- The pricing rows `_set_from_other_cert` assembles from a stored
`sales_data["medium"]`, with scale factors and weights computed against the
given reference card. -/
def mk_pricing_data (card : PCard) (salesData : SalesMedium) : List PricingRow :=
  salesData.flatMap fun e =>
    e.2.2.map fun sale =>
      ⟨sale.price, (get_scale_factor card e.1 e.2.1 sale.grade).1,
        (get_scale_factor card e.1 e.2.1 sale.grade).2, sale.grade⟩

/-- `scaled_prices = original_price * original_scale` (exact rationals). -/
def scaledPricesQ (pd : List PricingRow) : List ℚ :=
  pd.map fun r => (r.price : ℚ) * r.scale

def scaledPricesR (pd : List PricingRow) : List ℝ :=
  List.map (fun q => ((q : ℚ) : ℝ)) (scaledPricesQ pd)

/-- `np.mean` (population mean). -/
noncomputable def npMean (l : List ℝ) : ℝ := l.sum / l.length

/-- `np.std` (population standard deviation). -/
noncomputable def npStd (l : List ℝ) : ℝ :=
  Real.sqrt (npMean (l.map fun x => (x - npMean l) ^ 2))

/-- `np.clip`. -/
def npClip (x lo hi : ℝ) : ℝ := min (max x lo) hi

/-- The outlier-dampening weights of `_calculate`: all ones when the std is
below the epsilon, otherwise `1 / clip(|z|, 1, 1000)`. -/
noncomputable def stdWeights (scaled : List ℝ) : List ℝ :=
  if npStd scaled < 1 / 100000 then scaled.map fun _ => 1
  else scaled.map fun x => 1 / npClip (|x - npMean scaled| / npStd scaled) 1 1000

/-- `weights_to_use = std_weights * original_weights`. -/
noncomputable def weightsToUse (pd : List PricingRow) : List ℝ :=
  List.zipWith (fun a b => a * b) (stdWeights (scaledPricesR pd))
    (pd.map fun r => ((r.weight : ℚ) : ℝ))

/-- Python `int(...)`: truncation toward zero. -/
noncomputable def pyInt (x : ℝ) : ℤ := if 0 ≤ x then ⌊x⌋ else ⌈x⌉

/-- `scaled_avg_price = int(sum(scaled_prices * weights_to_use) / sum(weights_to_use))`. -/
noncomputable def scaled_avg_price (pd : List PricingRow) : ℤ :=
  pyInt ((List.zipWith (fun a b => a * b) (scaledPricesR pd) (weightsToUse pd)).sum /
    (weightsToUse pd).sum)

/-- `Price._calculate`: computes the estimate, then the change guard
`abs(scaled_avg_price - previous_price) <= 1e-5` (both are integers) decides
`price_changed`. Returns `(price_changed, estimate)`. -/
noncomputable def calculate (pd : List PricingRow) (card : PCard) : Bool × ℤ :=
  let est := scaled_avg_price pd
  if ((|est - card.sellingPrice| : ℤ) : ℚ) ≤ 1 / 100000 then (false, est) else (true, est)

/-! ### `Price._save`, the run pipeline, bulk recalculation, collection -/

inductive PriceError
  | noSalesData (cert : String)
  | cancelled
  | noObservations
  | inputExhausted
  | attrError (name : String)
deriving DecidableEq

/-- The card mutation `_save` performs once the operator has not quit:
`sales_data` is replaced by the run's observation dict, `avg_price` and
`last_updated` are set, and the live selling price is overwritten exactly
when the operator answered `"y"`. -/
def applySave (card : PCard) (hist : SalesMedium) (est : ℤ) (okay today : String) : PCard :=
  { card with
    salesData := hist
    avgPrice := est
    lastUpdated := today
    sellingPrice := if okay = "y" then est else card.sellingPrice }

/-- One valuation run over a fixed observation history: `_calculate` followed
by `_save`. When the change guard trips, `_save` returns without touching the
card; an operator answer of `"q"` aborts with nothing saved; otherwise the
card is rewritten. Returns `(price_changed, resulting card)`. -/
noncomputable def runValuation (card : PCard) (hist : SalesMedium) (okay today : String) :
    Except PriceError (Bool × PCard) :=
  let pd := mk_pricing_data card hist
  let r := calculate pd card
  if r.1 = false then .ok (false, card)
  else if okay = "q" then .error .cancelled
  else .ok (true, applySave card hist r.2 okay today)

/-- `Price._set_from_other_cert` as a function of the target card and the
source card: the source's stored history is reused verbatim, scale factors
are recomputed against the target. Returns the assembled pricing rows. -/
def set_from_other_cert_rows (target source : PCard) : List PricingRow :=
  mk_pricing_data target source.salesData

/-- The estimate a copy-from-cert run computes for `target` from `source`'s
stored history. -/
noncomputable def set_from_other_cert_estimate (target source : PCard) : ℤ :=
  scaled_avg_price (mk_pricing_data target source.salesData)

/-- `Price._recalculate_cert`: a card with `avg_price == 0` raises
`CardNoSalesDataException`; otherwise the card is re-valued from its own
stored history. -/
noncomputable def recalculate_cert (cert : String) (card : PCard) (okay today : String) :
    Except PriceError (Bool × PCard) :=
  if card.avgPrice = 0 then .error (.noSalesData cert)
  else runValuation card card.salesData okay today

/-- `Price._recalculate_all_certs` (price.py:71-76): the loop's very first
step iterates `self.collection.get_next_card()`, but `Collection`
(src/collection.py) defines no `get_next_card` method, so the call raises
`AttributeError` before any card is visited; the `try`/`except` inside the
loop body is never reached. The dataset and operator answers are therefore
never consulted. -/
def recalculate_all_certs (data : List (String × PCard)) (okay today : String) :
    Except PriceError (List (String × PCard)) :=
  .error (.attrError "get_next_card")

/-- One operator action inside `_collect_prices`' input loop: a parsed
`price,grade` entry, `'c'` (skip this venue/status), `'e'` (finish all
input), or `'q'` (quit). Malformed input re-prompts and produces no event. -/
inductive InputEvent
  | entry (price grade : ℤ)
  | skip
  | finish
  | quit
deriving DecidableEq

/-- The venue/status phases in iteration order of `_collect_prices`. -/
def venuePhases : List (Venue × SaleStatus) :=
  [(.ebay, .selling), (.ebay, .sold), (.mercari, .selling), (.mercari, .sold)]

/-- The nested input loop of `_collect_prices`: grade must lie in `[1, 10]`
and price must be positive, else the operator is re-prompted; valid entries
are appended with their scale factor and weight. Exhausting the event list
while phases remain would block on `input()`, modelled as an error. -/
def collectLoop (card : PCard) :
    List InputEvent → List (Venue × SaleStatus) → List PricingRow →
      Except PriceError (List PricingRow)
  | _, [], acc => .ok acc
  | [], _ :: _, _ => .error .inputExhausted
  | ev :: events, (w, s) :: phases, acc =>
    match ev with
    | .skip => collectLoop card events phases acc
    | .finish => .ok acc
    | .quit => .error .cancelled
    | .entry price grade =>
      if ¬(1 ≤ grade ∧ grade ≤ 10) then collectLoop card events ((w, s) :: phases) acc
      else if price ≤ 0 then collectLoop card events ((w, s) :: phases) acc
      else
        collectLoop card events ((w, s) :: phases)
          (acc ++ [⟨price, (get_scale_factor card w s grade).1,
            (get_scale_factor card w s grade).2, grade⟩])

/-- `Price._collect_prices` up to its emptiness check: `raise` when no prices
were added (the spec's NoObservationsError). -/
def collect_prices (card : PCard) (events : List InputEvent) :
    Except PriceError (List PricingRow) :=
  match collectLoop card events venuePhases [] with
  | .error e => .error e
  | .ok rows => if rows = [] then .error .noObservations else .ok rows

/-- Which operation `Price.act` dispatches to. -/
inductive ActOutcome
  | recalcOne (cert : String)
  | recalcAll
  | certRequiredError
  | copyAttrError
  | fresh (cert : String)
deriving DecidableEq

/-- `Price.act`. In copy-from-cert mode the source reads `self.copy_sert`
(line 57), an attribute that is never assigned anywhere in the class, so the
dispatch raises `AttributeError` before any pricing work happens. -/
def act (recalculate : Bool) (cert : Option String) (copy_cert : Option String) : ActOutcome :=
  if recalculate then
    match cert with
    | some c => .recalcOne c
    | none => .recalcAll
  else
    match cert with
    | none => .certRequiredError
    | some c =>
      match copy_cert with
      | some _ => .copyAttrError
      | none => .fresh c

/-! ### C8: the division in the weighted average is well-defined -/

lemma exists_of_mem_zipWith {α β γ : Type} {f : α → β → γ} {l1 : List α} {l2 : List β} {x : γ}
    (h : x ∈ List.zipWith f l1 l2) : ∃ a b, a ∈ l1 ∧ b ∈ l2 ∧ x = f a b := by
  induction l1 generalizing l2 with
  | nil => simp at h
  | cons a t ih =>
    cases l2 with
    | nil => simp at h
    | cons b t2 =>
      rw [List.zipWith_cons_cons, List.mem_cons] at h
      rcases h with h | h
      · exact ⟨a, b, List.mem_cons_self _ _, List.mem_cons_self _ _, h⟩
      · obtain ⟨a', b', ha, hb, hx⟩ := ih h
        exact ⟨a', b', List.mem_cons_of_mem _ ha, List.mem_cons_of_mem _ hb, hx⟩

lemma stdWeights_pos (scaled : List ℝ) (x : ℝ) (hx : x ∈ stdWeights scaled) : 0 < x := by
  unfold stdWeights at hx
  by_cases h : npStd scaled < 1 / 100000
  · rw [if_pos h] at hx
    obtain ⟨y, _, rfl⟩ := List.mem_map.mp hx
    norm_num
  · rw [if_neg h] at hx
    obtain ⟨y, _, rfl⟩ := List.mem_map.mp hx
    have hc : (1 : ℝ) ≤ npClip (|y - npMean scaled| / npStd scaled) 1 1000 := by
      unfold npClip
      exact le_min (le_max_right _ _) (by norm_num)
    have : (0 : ℝ) < npClip (|y - npMean scaled| / npStd scaled) 1 1000 := lt_of_lt_of_le one_pos hc
    exact div_pos one_pos this

lemma length_stdWeights (scaled : List ℝ) : (stdWeights scaled).length = scaled.length := by
  unfold stdWeights
  split <;> simp

lemma length_scaledPricesR (pd : List PricingRow) : (scaledPricesR pd).length = pd.length := by
  unfold scaledPricesR scaledPricesQ
  rw [List.length_map, List.length_map]

/-- Any pricing-row list with positive venue weights has a strictly positive
total final weight. -/
lemma sum_weightsToUse_pos (pd : List PricingRow) (hne : pd ≠ [])
    (hw : ∀ r ∈ pd, 0 < r.weight) : 0 < (weightsToUse pd).sum := by
  apply List.sum_pos
  · intro x hx
    unfold weightsToUse at hx
    obtain ⟨a, b, ha, hb, rfl⟩ := exists_of_mem_zipWith hx
    have hap := stdWeights_pos _ a ha
    obtain ⟨r, hr, rfl⟩ := List.mem_map.mp hb
    have : (0 : ℝ) < ((r.weight : ℚ) : ℝ) := by exact_mod_cast hw r hr
    exact mul_pos hap this
  · have hlen : (weightsToUse pd).length = pd.length := by
      unfold weightsToUse
      rw [List.length_zipWith, length_stdWeights, length_scaledPricesR, List.length_map,
        min_self]
    intro hnil
    apply hne
    rw [hnil] at hlen
    exact List.eq_nil_of_length_eq_zero hlen.symm

lemma get_scale_factor_weight_pos (card : PCard) (w : Venue) (s : SaleStatus) (g : ℤ) :
    0 < (get_scale_factor card w s g).2 := by
  cases w <;> cases s <;> simp only [get_scale_factor, websiteWeighting] <;>
    split_ifs <;> norm_num

lemma mem_mk_pricing_data_weight (card : PCard) (hist : SalesMedium) (r : PricingRow)
    (h : r ∈ mk_pricing_data card hist) : 0 < r.weight := by
  unfold mk_pricing_data at h
  rw [List.mem_flatMap] at h
  obtain ⟨e, _, hr⟩ := h
  obtain ⟨sale, _, rfl⟩ := List.mem_map.mp hr
  exact get_scale_factor_weight_pos card e.1 e.2.1 sale.grade

lemma collectLoop_weight_pos (card : PCard) (events : List InputEvent) :
    ∀ (phases : List (Venue × SaleStatus)) (acc rows : List PricingRow),
      (∀ r ∈ acc, 0 < r.weight) → collectLoop card events phases acc = .ok rows →
        ∀ r ∈ rows, 0 < r.weight := by
  induction events with
  | nil =>
    intro phases acc rows hacc h
    cases phases with
    | nil =>
      simp only [collectLoop] at h
      cases h
      exact hacc
    | cons p ps => simp [collectLoop] at h
  | cons ev evs ih =>
    intro phases acc rows hacc h
    cases phases with
    | nil =>
      simp only [collectLoop] at h
      cases h
      exact hacc
    | cons p ps =>
      obtain ⟨w, s⟩ := p
      cases ev with
      | skip => exact ih ps acc rows hacc h
      | finish =>
        simp only [collectLoop] at h
        cases h
        exact hacc
      | quit => simp [collectLoop] at h
      | entry price grade =>
        simp only [collectLoop] at h
        by_cases hg : ¬(1 ≤ grade ∧ grade ≤ 10)
        · rw [if_pos hg] at h
          exact ih _ acc rows hacc h
        · rw [if_neg hg] at h
          by_cases hp : price ≤ 0
          · rw [if_pos hp] at h
            exact ih _ acc rows hacc h
          · rw [if_neg hp] at h
            refine ih _ _ rows ?_ h
            intro r hr
            rcases List.mem_append.mp hr with hr | hr
            · exact hacc r hr
            · rw [List.mem_singleton] at hr
              subst hr
              exact get_scale_factor_weight_pos card w s grade

/-- C8: a fresh collection whose final observation list is empty fails with
the NoObservations error, and every nonempty observation list (whether
re-derived from stored history or collected interactively) has a strictly
positive total final weight, so the weighted-average division is
well-defined. -/
theorem no_observations_or_positive_weight_sum (card : PCard) (events : List InputEvent)
    (hist : SalesMedium) :
    (∀ rows, collect_prices card events = Except.ok rows → rows ≠ [])
      ∧ (collectLoop card events venuePhases [] = Except.ok [] →
          collect_prices card events = Except.error PriceError.noObservations)
      ∧ (mk_pricing_data card hist ≠ [] →
          0 < (weightsToUse (mk_pricing_data card hist)).sum)
      ∧ (∀ rows, collect_prices card events = Except.ok rows → rows ≠ [] →
          0 < (weightsToUse rows).sum) := by
  refine ⟨?_, ?_, ?_, ?_⟩
  · intro rows h
    cases hl : collectLoop card events venuePhases [] with
    | error e =>
      have hcp : collect_prices card events = .error e := by
        unfold collect_prices; rw [hl]
      rw [hcp] at h; cases h
    | ok rows0 =>
      have hcp : collect_prices card events =
          if rows0 = [] then .error .noObservations else .ok rows0 := by
        unfold collect_prices; rw [hl]
      rw [hcp] at h
      by_cases h0 : rows0 = []
      · rw [if_pos h0] at h; cases h
      · rw [if_neg h0] at h
        cases h
        exact h0
  · intro h
    unfold collect_prices
    rw [h]
    rfl
  · intro h
    exact sum_weightsToUse_pos _ h (mem_mk_pricing_data_weight card hist)
  · intro rows h hne
    cases hl : collectLoop card events venuePhases [] with
    | error e =>
      have hcp : collect_prices card events = .error e := by
        unfold collect_prices; rw [hl]
      rw [hcp] at h; cases h
    | ok rows0 =>
      have hcp : collect_prices card events =
          if rows0 = [] then .error .noObservations else .ok rows0 := by
        unfold collect_prices; rw [hl]
      rw [hcp] at h
      by_cases h0 : rows0 = []
      · rw [if_pos h0] at h; cases h
      · rw [if_neg h0] at h
        cases h
        exact sum_weightsToUse_pos _ hne
          (collectLoop_weight_pos card events venuePhases [] rows (by simp) hl)

/-! ### C6: copy-from-cert -/

lemma get_scale_factor_congr (t1 t2 : PCard) (hg : t1.grade = t2.grade)
    (hs : t1.sign = t2.sign) : get_scale_factor t1 = get_scale_factor t2 := by
  funext w s g
  simp [get_scale_factor, hg, hs]

lemma mk_pricing_data_congr (t1 t2 : PCard) (hg : t1.grade = t2.grade)
    (hs : t1.sign = t2.sign) (hist : SalesMedium) :
    mk_pricing_data t1 hist = mk_pricing_data t2 hist := by
  unfold mk_pricing_data
  rw [get_scale_factor_congr t1 t2 hg hs]

/-- C6: as wired, copy-from-cert mode crashes: `act` with a copy cert reads
the never-assigned attribute `copy_sert` (an `AttributeError`), before any
valuation runs. The underlying `_set_from_other_cert` itself does reuse the
source history verbatim and recomputes scale factors against the target, so
its pricing rows and estimate depend only on the target's grade and
signature given the source's stored history. -/
theorem copy_from_cert_crashes_and_depends_on_target (c k : String)
    (target t1 t2 s s1 s2 : PCard) :
    act false (some c) (some k) = ActOutcome.copyAttrError
      ∧ (s1.salesData = s2.salesData →
          set_from_other_cert_rows target s1 = set_from_other_cert_rows target s2)
      ∧ (t1.grade = t2.grade → t1.sign = t2.sign →
          set_from_other_cert_rows t1 s = set_from_other_cert_rows t2 s
            ∧ set_from_other_cert_estimate t1 s = set_from_other_cert_estimate t2 s) := by
  refine ⟨rfl, ?_, ?_⟩
  · intro h
    unfold set_from_other_cert_rows
    rw [h]
  · intro hg hs
    have hrows := mk_pricing_data_congr t1 t2 hg hs s.salesData
    refine ⟨hrows, ?_⟩
    unfold set_from_other_cert_estimate
    rw [hrows]

def c6Source : PCard := ⟨10, true, 20000, 18000, [(.ebay, .sold, [⟨20000, 10⟩])], "2024-01-01"⟩

def c6TargetB : PCard := ⟨9, false, 5, 7, [], "x"⟩

/-- Witness for C6: two targets equal in grade and signature but different
everywhere else get identical pricing rows and estimate from the same
source. -/
theorem copy_from_cert_witness :
    c3Card.grade = c6TargetB.grade ∧ c3Card.sign = c6TargetB.sign
      ∧ act false (some "123") (some "456") = ActOutcome.copyAttrError
      ∧ set_from_other_cert_rows c3Card c6Source = set_from_other_cert_rows c6TargetB c6Source
      ∧ set_from_other_cert_estimate c3Card c6Source =
          set_from_other_cert_estimate c6TargetB c6Source :=
  ⟨rfl, rfl,
    (copy_from_cert_crashes_and_depends_on_target "123" "456" c3Card c3Card c6TargetB
      c6Source c6Source c6Source).1,
    ((copy_from_cert_crashes_and_depends_on_target "123" "456" c3Card c3Card c6TargetB
      c6Source c6Source c6Source).2.2 rfl rfl).1,
    ((copy_from_cert_crashes_and_depends_on_target "123" "456" c3Card c3Card c6TargetB
      c6Source c6Source c6Source).2.2 rfl rfl).2⟩

/-! ### C7: bulk recalculation -/

lemma runValuation_eq (card : PCard) (hist : SalesMedium) (okay today : String) :
    runValuation card hist okay today =
      if (calculate (mk_pricing_data card hist) card).1 = false then .ok (false, card)
      else if okay = "q" then .error .cancelled
      else .ok (true, applySave card hist (calculate (mk_pricing_data card hist) card).2
        okay today) := rfl

lemma calculate_eq (pd : List PricingRow) (card : PCard) :
    calculate pd card =
      if ((|scaled_avg_price pd - card.sellingPrice| : ℤ) : ℚ) ≤ 1 / 100000
      then (false, scaled_avg_price pd) else (true, scaled_avg_price pd) := rfl

/-- C7: as wired, bulk recalculation never completes: `_recalculate_all_certs`
iterates `self.collection.get_next_card()` (price.py:72), a method
`Collection` does not define, so the batch raises `AttributeError` before
visiting any card, for every dataset and operator answer — contradicting the
claim that it iterates every card and always completes. The dedicated skip
condition does exist on the (reachable) per-cert path: `_recalculate_cert`
raises `CardNoSalesDataException` exactly when the stored average price is
zero, and re-values the card from its own history otherwise. -/
theorem bulk_recalculation_aborts (data : List (String × PCard)) (okay today cert : String)
    (card : PCard) :
    recalculate_all_certs data okay today =
        Except.error (PriceError.attrError "get_next_card")
      ∧ (card.avgPrice = 0 →
          recalculate_cert cert card okay today = Except.error (PriceError.noSalesData cert))
      ∧ (card.avgPrice ≠ 0 →
          recalculate_cert cert card okay today = runValuation card card.salesData okay today) := by
  refine ⟨rfl, ?_, ?_⟩
  · intro h0
    unfold recalculate_cert
    rw [if_pos h0]
  · intro h0
    unfold recalculate_cert
    rw [if_neg h0]

/-- Witness for C7: over a batch holding one zero-average card and one priced
card, the run aborts at once with the missing-attribute error; the per-cert
path raises the skip condition for the former and re-values the latter. -/
theorem bulk_recalculation_aborts_witness :
    recalculate_all_certs [("X", c3Card), ("Y", c6Source)] "y" "2026-01-01" =
        Except.error (PriceError.attrError "get_next_card")
      ∧ c3Card.avgPrice = 0
      ∧ recalculate_cert "X" c3Card "y" "2026-01-01" =
          Except.error (PriceError.noSalesData "X")
      ∧ c6Source.avgPrice ≠ 0
      ∧ recalculate_cert "Y" c6Source "y" "2026-01-01" =
          runValuation c6Source c6Source.salesData "y" "2026-01-01" :=
  ⟨(bulk_recalculation_aborts [("X", c3Card), ("Y", c6Source)] "y" "2026-01-01" "X" c3Card).1,
   rfl,
   (bulk_recalculation_aborts [("X", c3Card), ("Y", c6Source)] "y" "2026-01-01" "X"
     c3Card).2.1 rfl,
   by decide,
   (bulk_recalculation_aborts [("X", c3Card), ("Y", c6Source)] "y" "2026-01-01" "Y"
     c6Source).2.2 (by decide)⟩

/-! ### C5: the change guard and idempotence -/

/-- When the new estimate is within epsilon of the stored selling price, the
run is a no-op: no error, no card mutation. -/
lemma runValuation_noop (card : PCard) (hist : SalesMedium) (okay today : String)
    (h : ((|scaled_avg_price (mk_pricing_data card hist) - card.sellingPrice| : ℤ) : ℚ) ≤
      1 / 100000) : runValuation card hist okay today = .ok (false, card) := by
  rw [runValuation_eq, calculate_eq, if_pos h]
  simp

/-- C5: the change guard makes valuation idempotent. If the fresh estimate is
within epsilon of the stored selling price the run neither errors nor touches
the card (no storage rewrite, no last-updated bump); and after a persisting
`"y"` run, re-running on the same observation history computes the same
estimate and is a no-op. -/
theorem valuation_rerun_noop (card : PCard) (hist : SalesMedium) (okay today d1 d2 : String)
    (c1 : PCard) :
    (((|scaled_avg_price (mk_pricing_data card hist) - card.sellingPrice| : ℤ) : ℚ) ≤ 1 / 100000 →
        runValuation card hist okay today = Except.ok (false, card))
      ∧ (runValuation card hist "y" d1 = Except.ok (true, c1) →
          scaled_avg_price (mk_pricing_data c1 hist) =
              scaled_avg_price (mk_pricing_data card hist)
            ∧ runValuation c1 hist okay d2 = Except.ok (false, c1)) := by
  constructor
  · exact runValuation_noop card hist okay today
  · intro hrun
    rw [runValuation_eq] at hrun
    by_cases hch : (calculate (mk_pricing_data card hist) card).1 = false
    · rw [if_pos hch] at hrun
      simp at hrun
    · rw [if_neg hch, if_neg (by decide : ¬("y" : String) = "q")] at hrun
      have h2 := Except.ok.inj hrun
      rw [Prod.mk.injEq] at h2
      have hc1 : c1 = applySave card hist (calculate (mk_pricing_data card hist) card).2
          "y" d1 := h2.2.symm
      subst hc1
      have hpd : mk_pricing_data
          (applySave card hist (calculate (mk_pricing_data card hist) card).2 "y" d1) hist =
          mk_pricing_data card hist :=
        mk_pricing_data_congr _ _ rfl rfl hist
      refine ⟨by rw [hpd], ?_⟩
      apply runValuation_noop
      rw [hpd]
      have hsell : (applySave card hist (calculate (mk_pricing_data card hist) card).2
          "y" d1).sellingPrice = (calculate (mk_pricing_data card hist) card).2 := by
        simp [applySave]
      rw [hsell, calculate_eq]
      split_ifs <;> simp

def c5Hist : SalesMedium := [(.ebay, .selling, [⟨100, 9⟩])]

def c5Card : PCard := ⟨9, false, 110, 50, c5Hist, "2024-05-05"⟩

def c5Card0 : PCard := ⟨9, false, 0, 50, [], "2024-05-05"⟩

lemma c5_pd3 : mk_pricing_data c3Card c5Hist = [⟨100, 11 / 10, 6 / 5, 9⟩] := by
  norm_num [mk_pricing_data, get_scale_factor, websiteWeighting, c3Card, c5Hist]

lemma c5_pd (card : PCard) (hg : card.grade = 9) (hs : card.sign = false) :
    mk_pricing_data card c5Hist = [⟨100, 11 / 10, 6 / 5, 9⟩] := by
  rw [mk_pricing_data_congr card c3Card (by rw [hg]; rfl) (by rw [hs]; rfl), c5_pd3]

lemma c5_est : scaled_avg_price [(⟨100, 11 / 10, 6 / 5, 9⟩ : PricingRow)] = 110 := by
  have hsq : scaledPricesQ [(⟨100, 11 / 10, 6 / 5, 9⟩ : PricingRow)] = [110] := by
    norm_num [scaledPricesQ]
  have hsr : scaledPricesR [(⟨100, 11 / 10, 6 / 5, 9⟩ : PricingRow)] = [(110 : ℝ)] := by
    rw [scaledPricesR, hsq]
    norm_num
  have hmean : npMean [(110 : ℝ)] = 110 := by norm_num [npMean]
  have hstd : npStd [(110 : ℝ)] = 0 := by
    unfold npStd
    rw [hmean]
    have : ([(110 : ℝ)].map fun x => (x - 110) ^ 2) = [0] := by norm_num
    rw [this]
    have : npMean [(0 : ℝ)] = 0 := by norm_num [npMean]
    rw [this, Real.sqrt_zero]
  have hstdw : stdWeights [(110 : ℝ)] = [1] := by
    unfold stdWeights
    rw [hstd]
    norm_num
  have hw : weightsToUse [(⟨100, 11 / 10, 6 / 5, 9⟩ : PricingRow)] = [(6 / 5 : ℝ)] := by
    unfold weightsToUse
    rw [hsr, hstdw]
    norm_num
  unfold scaled_avg_price
  rw [hsr, hw]
  have : (List.zipWith (fun a b => a * b) [(110 : ℝ)] [(6 / 5 : ℝ)]).sum /
      ([(6 / 5 : ℝ)]).sum = 110 := by norm_num
  rw [this]
  norm_num [pyInt]

lemma c5_run_changed : runValuation c5Card0 c5Hist "y" "d1" =
    Except.ok (true, (⟨9, false, 110, 110, c5Hist, "d1"⟩ : PCard)) := by
  rw [runValuation_eq, calculate_eq, c5_pd c5Card0 rfl rfl, c5_est]
  norm_num [c5Card0, applySave]
  intro h
  exact absurd h (by decide)

/-- Witness for C5: with a single stored observation at the card's own grade,
the estimate is 110 JPY; a card already priced at 110 is untouched by a
re-run, and after a persisting run the second run is a no-op. -/
theorem valuation_rerun_noop_witness :
    (((|scaled_avg_price (mk_pricing_data c5Card c5Hist) - c5Card.sellingPrice| : ℤ) : ℚ) ≤
        1 / 100000)
      ∧ runValuation c5Card c5Hist "n" "2026-10-12" = Except.ok (false, c5Card)
      ∧ scaled_avg_price
            (mk_pricing_data (⟨9, false, 110, 110, c5Hist, "d1"⟩ : PCard) c5Hist) =
          scaled_avg_price (mk_pricing_data c5Card0 c5Hist)
      ∧ runValuation (⟨9, false, 110, 110, c5Hist, "d1"⟩ : PCard) c5Hist "n" "d2" =
          Except.ok (false, (⟨9, false, 110, 110, c5Hist, "d1"⟩ : PCard)) := by
  have h1 : ((|scaled_avg_price (mk_pricing_data c5Card c5Hist) - c5Card.sellingPrice| : ℤ) : ℚ) ≤
      1 / 100000 := by
    rw [c5_pd c5Card rfl rfl, c5_est]
    norm_num [c5Card]
  exact ⟨h1,
    (valuation_rerun_noop c5Card c5Hist "n" "2026-10-12" "d1" "d2" c5Card).1 h1,
    ((valuation_rerun_noop c5Card0 c5Hist "n" "x" "d1" "d2"
      (⟨9, false, 110, 110, c5Hist, "d1"⟩ : PCard)).2 c5_run_changed).1,
    ((valuation_rerun_noop c5Card0 c5Hist "n" "x" "d1" "d2"
      (⟨9, false, 110, 110, c5Hist, "d1"⟩ : PCard)).2 c5_run_changed).2⟩

/-! ### Witness for C8 -/

def c8Events : List InputEvent := [.entry 100 9, .finish]

lemma c8_collect : collect_prices c3Card c8Events =
    Except.ok [(⟨100, 11 / 10, 6 / 5, 9⟩ : PricingRow)] := by
  have hloop : collectLoop c3Card c8Events venuePhases [] =
      Except.ok [(⟨100, 11 / 10, 6 / 5, 9⟩ : PricingRow)] := by
    show collectLoop c3Card [InputEvent.entry 100 9, .finish]
      ((.ebay, .selling) :: [(.ebay, .sold), (.mercari, .selling), (.mercari, .sold)]) [] = _
    rw [show collectLoop c3Card (InputEvent.entry 100 9 :: [InputEvent.finish])
        ((Venue.ebay, SaleStatus.selling) ::
          [(Venue.ebay, SaleStatus.sold), (Venue.mercari, SaleStatus.selling),
            (Venue.mercari, SaleStatus.sold)]) [] =
        if ¬(1 ≤ (9 : ℤ) ∧ (9 : ℤ) ≤ 10) then collectLoop c3Card [InputEvent.finish]
          ((Venue.ebay, SaleStatus.selling) ::
            [(Venue.ebay, SaleStatus.sold), (Venue.mercari, SaleStatus.selling),
              (Venue.mercari, SaleStatus.sold)]) []
        else if (100 : ℤ) ≤ 0 then collectLoop c3Card [InputEvent.finish]
          ((Venue.ebay, SaleStatus.selling) ::
            [(Venue.ebay, SaleStatus.sold), (Venue.mercari, SaleStatus.selling),
              (Venue.mercari, SaleStatus.sold)]) []
        else collectLoop c3Card [InputEvent.finish]
          ((Venue.ebay, SaleStatus.selling) ::
            [(Venue.ebay, SaleStatus.sold), (Venue.mercari, SaleStatus.selling),
              (Venue.mercari, SaleStatus.sold)])
          ([] ++ [⟨100, (get_scale_factor c3Card .ebay .selling 9).1,
            (get_scale_factor c3Card .ebay .selling 9).2, 9⟩]) from rfl]
    rw [if_neg (by norm_num), if_neg (by norm_num)]
    rw [show collectLoop c3Card [InputEvent.finish]
        ((Venue.ebay, SaleStatus.selling) ::
          [(Venue.ebay, SaleStatus.sold), (Venue.mercari, SaleStatus.selling),
            (Venue.mercari, SaleStatus.sold)])
        ([] ++ [⟨100, (get_scale_factor c3Card .ebay .selling 9).1,
          (get_scale_factor c3Card .ebay .selling 9).2, 9⟩]) =
        Except.ok ([] ++ [⟨100, (get_scale_factor c3Card .ebay .selling 9).1,
          (get_scale_factor c3Card .ebay .selling 9).2, 9⟩]) from rfl]
    norm_num [get_scale_factor, websiteWeighting, c3Card]
  unfold collect_prices
  rw [hloop]
  norm_num

/-- Witness for C8: a one-entry collection succeeds with a nonempty row list,
and both that list and a one-observation stored history have strictly
positive total final weight. -/
theorem no_observations_witness :
    ([(⟨100, 11 / 10, 6 / 5, 9⟩ : PricingRow)] : List PricingRow) ≠ []
      ∧ 0 < (weightsToUse (mk_pricing_data c3Card c5Hist)).sum
      ∧ 0 < (weightsToUse [(⟨100, 11 / 10, 6 / 5, 9⟩ : PricingRow)]).sum :=
  ⟨(no_observations_or_positive_weight_sum c3Card c8Events c5Hist).1 _ c8_collect,
   (no_observations_or_positive_weight_sum c3Card c8Events c5Hist).2.2.1
     (by rw [c5_pd3]; simp),
   (no_observations_or_positive_weight_sum c3Card c8Events c5Hist).2.2.2 _ c8_collect
     (by simp)⟩

/-! ### C4: the estimate is the weight-normalized average -/

lemma calculate_snd (pd : List PricingRow) (card : PCard) :
    (calculate pd card).2 = scaled_avg_price pd := by
  rw [calculate_eq]
  split_ifs <;> rfl

lemma zipWith_mul_map {α : Type} (l : List α) (f g : α → ℝ) :
    List.zipWith (fun a b => a * b) (l.map f) (l.map g) = l.map fun x => f x * g x := by
  induction l with
  | nil => rfl
  | cons x t ih => simp [ih]

lemma scaledPricesR_eq_map (pd : List PricingRow) :
    scaledPricesR pd = pd.map fun r => (((r.price : ℚ) * r.scale : ℚ) : ℝ) := by
  unfold scaledPricesR scaledPricesQ
  rw [List.map_map]
  rfl

/-- Modelled from the spec (§4.2 aggregate estimate): the final weight of one
observation, `weight × std_weight`, with `std_weight` equal to `1` when the
population standard deviation of the scaled prices is below epsilon and
`1 / clip(|scaled_price − mean| / std, 1, 1000)` otherwise. -/
noncomputable def specFinalWeight (pd : List PricingRow) (r : PricingRow) : ℝ :=
  ((r.weight : ℚ) : ℝ) *
    (if npStd (scaledPricesR pd) < 1 / 100000 then 1
     else 1 / npClip (|(((r.price : ℚ) * r.scale : ℚ) : ℝ) - npMean (scaledPricesR pd)| /
       npStd (scaledPricesR pd)) 1 1000)

/-- Modelled from the spec: `Σ(scaled_price·final_weight) / Σ(final_weight)`. -/
noncomputable def specEstimate (pd : List PricingRow) : ℝ :=
  (pd.map fun r => (((r.price : ℚ) * r.scale : ℚ) : ℝ) * specFinalWeight pd r).sum /
    (pd.map fun r => specFinalWeight pd r).sum

lemma stdWeights_scaled_eq (pd : List PricingRow) :
    stdWeights (scaledPricesR pd) = pd.map fun r =>
      if npStd (scaledPricesR pd) < 1 / 100000 then 1
      else 1 / npClip (|(((r.price : ℚ) * r.scale : ℚ) : ℝ) - npMean (scaledPricesR pd)| /
        npStd (scaledPricesR pd)) 1 1000 := by
  unfold stdWeights
  by_cases h : npStd (scaledPricesR pd) < 1 / 100000
  · rw [if_pos h]
    conv_lhs => rw [scaledPricesR_eq_map, List.map_map]
    apply List.map_congr_left
    intro r _
    rw [if_pos h]
    rfl
  · rw [if_neg h]
    conv_lhs => rw [scaledPricesR_eq_map, List.map_map]
    apply List.map_congr_left
    intro r _
    rw [if_neg h, scaledPricesR_eq_map]
    rfl

lemma weightsToUse_eq_map (pd : List PricingRow) :
    weightsToUse pd = pd.map (specFinalWeight pd) := by
  unfold weightsToUse
  rw [stdWeights_scaled_eq]
  conv_lhs => rw [show (pd.map fun r => ((r.weight : ℚ) : ℝ)) =
    pd.map (fun r => ((r.weight : ℚ) : ℝ)) from rfl]
  rw [zipWith_mul_map]
  apply List.map_congr_left
  intro r _
  unfold specFinalWeight
  exact mul_comm _ _

lemma scaled_avg_price_eq_spec (pd : List PricingRow) :
    scaled_avg_price pd = pyInt (specEstimate pd) := by
  unfold scaled_avg_price specEstimate
  rw [weightsToUse_eq_map]
  conv_lhs => rw [scaledPricesR_eq_map, zipWith_mul_map]

def c4Hist : SalesMedium := [(.ebay, .selling, [⟨10000, 9⟩]), (.ebay, .sold, [⟨15000, 10⟩])]

lemma c4_pd : mk_pricing_data c3Card c4Hist =
    [⟨10000, 11 / 10, 6 / 5, 9⟩, ⟨15000, 539 / 1000, 6 / 5, 10⟩] := by
  norm_num [mk_pricing_data, get_scale_factor, websiteWeighting, c3Card, c4Hist]

lemma c4_sq : scaledPricesQ [(⟨10000, 11 / 10, 6 / 5, 9⟩ : PricingRow), ⟨15000, 539 / 1000, 6 / 5, 10⟩] =
    [11000, 8085] := by
  norm_num [scaledPricesQ]

lemma c4_sr : scaledPricesR [(⟨10000, 11 / 10, 6 / 5, 9⟩ : PricingRow), ⟨15000, 539 / 1000, 6 / 5, 10⟩] =
    [(11000 : ℝ), 8085] := by
  rw [scaledPricesR, c4_sq]
  norm_num

lemma c4_mean : npMean [(11000 : ℝ), 8085] = 19085 / 2 := by
  norm_num [npMean]

lemma c4_std : npStd [(11000 : ℝ), 8085] = 2915 / 2 := by
  unfold npStd
  rw [c4_mean]
  have h1 : ([(11000 : ℝ), 8085].map fun x => (x - 19085 / 2) ^ 2) =
      [(2915 / 2 : ℝ) ^ 2, (2915 / 2 : ℝ) ^ 2] := by norm_num
  rw [h1]
  have h2 : npMean [(2915 / 2 : ℝ) ^ 2, (2915 / 2 : ℝ) ^ 2] = (2915 / 2 : ℝ) ^ 2 := by
    norm_num [npMean]
  rw [h2]
  exact Real.sqrt_sq (by norm_num)

lemma c4_stdw : stdWeights [(11000 : ℝ), 8085] = [1, 1] := by
  unfold stdWeights
  rw [c4_std, c4_mean, if_neg (by norm_num)]
  have e1 : (1 : ℝ) / npClip (|(11000 : ℝ) - 19085 / 2| / (2915 / 2)) 1 1000 = 1 := by
    rw [abs_of_nonneg (by norm_num : (0 : ℝ) ≤ (11000 : ℝ) - 19085 / 2)]
    norm_num [npClip]
  have e2 : (1 : ℝ) / npClip (|(8085 : ℝ) - 19085 / 2| / (2915 / 2)) 1 1000 = 1 := by
    rw [abs_of_nonpos (by norm_num : (8085 : ℝ) - 19085 / 2 ≤ 0)]
    norm_num [npClip]
  rw [List.map_cons, List.map_cons, List.map_nil, e1, e2]

lemma c4_w : weightsToUse [(⟨10000, 11 / 10, 6 / 5, 9⟩ : PricingRow), ⟨15000, 539 / 1000, 6 / 5, 10⟩] =
    [(6 / 5 : ℝ), 6 / 5] := by
  unfold weightsToUse
  rw [c4_sr, c4_stdw]
  norm_num

lemma c4_est : (calculate (mk_pricing_data c3Card c4Hist) c3Card).2 = 9542 := by
  rw [calculate_snd, c4_pd]
  unfold scaled_avg_price
  rw [c4_sr, c4_w]
  have hs : (List.zipWith (fun a b => a * b) [(11000 : ℝ), 8085] [(6 / 5 : ℝ), 6 / 5]).sum /
      ([(6 / 5 : ℝ), 6 / 5]).sum = 19085 / 2 := by norm_num
  rw [hs]
  rw [show pyInt (19085 / 2 : ℝ) = ⌊(19085 / 2 : ℝ)⌋ from by rw [pyInt, if_pos (by norm_num)]]
  rw [Int.floor_eq_iff]
  constructor <;> norm_num

/-- C4: the estimate returned by `_calculate` is the weight-normalized
average of the scaled prices truncated to an integer, with each final weight
equal to the venue/status weight times the outlier-dampening weight
(`1` below the epsilon std, else `1 / clip(|z|, 1, 1000)`); truncation is
round-down on the (nonnegative) weighted average. In the spec's concrete
scenario (unsigned grade-9 card; 10000 at grade 9 marketplace-A listed and
15000 at grade 10 marketplace-A sold) the scaled prices are 11000 and 8085
and the estimate lies strictly between them. -/
theorem estimate_weight_normalized_average (pd : List PricingRow) (card : PCard)
    (h : pd ≠ []) :
    ((calculate pd card).2 = pyInt (specEstimate pd)
      ∧ (0 ≤ specEstimate pd → (calculate pd card).2 = ⌊specEstimate pd⌋))
    ∧ (scaledPricesQ (mk_pricing_data c3Card c4Hist) = [11000, 8085]
      ∧ 8085 < (calculate (mk_pricing_data c3Card c4Hist) c3Card).2
      ∧ (calculate (mk_pricing_data c3Card c4Hist) c3Card).2 < 11000) := by
  refine ⟨⟨?_, ?_⟩, ?_, ?_, ?_⟩
  · rw [calculate_snd, scaled_avg_price_eq_spec]
  · intro hnn
    rw [calculate_snd, scaled_avg_price_eq_spec, pyInt, if_pos hnn]
  · rw [c4_pd, c4_sq]
  · rw [c4_est]
    norm_num
  · rw [c4_est]
    norm_num

/-- Witness for C4 at the spec's two-observation scenario. -/
theorem estimate_weight_normalized_average_witness :
    (mk_pricing_data c3Card c4Hist ≠ [])
      ∧ (calculate (mk_pricing_data c3Card c4Hist) c3Card).2 =
          pyInt (specEstimate (mk_pricing_data c3Card c4Hist))
      ∧ scaledPricesQ (mk_pricing_data c3Card c4Hist) = [11000, 8085] :=
  ⟨by rw [c4_pd]; simp,
   (estimate_weight_normalized_average (mk_pricing_data c3Card c4Hist) c3Card
     (by rw [c4_pd]; simp)).1.1,
   (estimate_weight_normalized_average (mk_pricing_data c3Card c4Hist) c3Card
     (by rw [c4_pd]; simp)).2.1⟩
